import Mathlib

/-
Verification development for the agent orchestration engine of this
repository (src/tools/base.py, src/tools/task_tools.py and the tool
catalog).  Python values are embedded shallowly: dictionaries and JSON
payloads become the Json inductive below, time and delays become
rationals, and the stateful loops (the orchestrator step loop, the
retrying invoker, the rate limiter) become explicit recursive functions
over scripts of externally supplied outcomes.
-/

/-! ## JSON value model (the payloads handled by json.loads / json.dumps) -/

inductive Json where
  | null : Json
  | bool (b : Bool) : Json
  | num (n : Int) : Json
  | str (s : String) : Json
  | arr (elems : List Json) : Json
  | obj (fields : List (String × Json)) : Json

/-- First binding of a key in an association list, as a Python dict lookup. -/
def lookupField : List (String × Json) → String → Option Json
  | [], _ => none
  | (k, v) :: rest, key => if k = key then some v else lookupField rest key

/-- Python dict assignment: overwrite in place if the key exists, else append. -/
def kvUpdate (fields : List (String × Json)) (k : String) (v : Json) : List (String × Json) :=
  if fields.any (fun f => f.1 = k) then
    fields.map (fun f => if f.1 = k then (k, v) else f)
  else fields ++ [(k, v)]

/-! ## Substring search (the Python in operator and str.index) -/

def findSubAux (pat : List Char) : List Char → Nat → Option Nat
  | [], i => if pat.isEmpty then some i else none
  | c :: rest, i =>
    if pat.isPrefixOf (c :: rest) then some i else findSubAux pat rest (i + 1)

/-- Index of the first occurrence of pat in hay, if any (str.index). -/
def findSub (hay pat : List Char) : Option Nat := findSubAux pat hay 0

/-- The Python expression pat in s for strings. -/
def containsSub (s pat : String) : Bool := (findSub s.data pat.data).isSome

/-- str.strip(chars): drop characters of cs from both ends of s. -/
def stripChars (cs : String) (s : String) : String :=
  let isCut := fun c => cs.data.contains c
  String.mk (((s.data.dropWhile isCut).reverse.dropWhile isCut).reverse)

/-- The whitespace set of str.strip with no argument (ASCII part). -/
def pyWs (c : Char) : Bool :=
  c = ' ' || c = '\t' || c = '\n' || c = '\r' || c = Char.ofNat 11 || c = Char.ofNat 12

/-- str.strip(): drop whitespace from both ends. -/
def pyStrip (s : String) : String :=
  String.mk (((s.data.dropWhile pyWs).reverse.dropWhile pyWs).reverse)

/-- str.lower() on ASCII text. -/
def lowerStr (s : String) : String :=
  String.mk (s.data.map Char.toLower)

def splitCharAux (sep : Char) : List Char → List Char → List String
  | [], acc => [String.mk acc.reverse]
  | c :: rest, acc =>
    if c = sep then String.mk acc.reverse :: splitCharAux sep rest []
    else splitCharAux sep rest (c :: acc)

/-- str.split(sep) for a one-character separator, keeping empty pieces. -/
def splitChar (sep : Char) (s : String) : List String :=
  splitCharAux sep s.data []

/-! ## json.dumps (default separators, optional sort_keys) -/

def hexDigitChar (n : Nat) : Char :=
  if n < 10 then Char.ofNat (48 + n) else Char.ofNat (87 + n)

def hex4 (n : Nat) : String :=
  String.mk [hexDigitChar (n / 4096 % 16), hexDigitChar (n / 256 % 16),
             hexDigitChar (n / 16 % 16), hexDigitChar (n % 16)]

/-- One character of a JSON string literal, escaped as json.dumps does with
ensure_ascii (code points above the basic plane are simplified to one \u item). -/
def jsonEscapeChar (c : Char) : String :=
  if c = '"' then "\\\"" else
  if c = '\\' then "\\\\" else
  if c = '\n' then "\\n" else
  if c = '\r' then "\\r" else
  if c = '\t' then "\\t" else
  if c = Char.ofNat 8 then "\\b" else
  if c = Char.ofNat 12 then "\\f" else
  if c.toNat < 32 || 126 < c.toNat then "\\u" ++ hex4 (c.toNat % 65536) else
  String.singleton c

def jsonQuote (s : String) : String :=
  "\"" ++ String.join (s.data.map jsonEscapeChar) ++ "\""

/-- Insertion into a key-sorted field list (used for sort_keys=True). -/
def insertSorted (kv : String × Json) : List (String × Json) → List (String × Json)
  | [] => [kv]
  | hd :: tl => if kv.1 < hd.1 then kv :: hd :: tl else hd :: insertSorted kv tl

def sortFields (fs : List (String × Json)) : List (String × Json) :=
  fs.foldr insertSorted []

mutual

/-- Recursively sort all object field lists by key (sort_keys=True sorts at
every nesting level). -/
def sortAll : Json → Json
  | .null => .null
  | .bool b => .bool b
  | .num n => .num n
  | .str s => .str s
  | .arr es => .arr (sortAllList es)
  | .obj fs => .obj (sortFields (sortAllFields fs))

def sortAllList : List Json → List Json
  | [] => []
  | j :: rest => sortAll j :: sortAllList rest

def sortAllFields : List (String × Json) → List (String × Json)
  | [] => []
  | (k, v) :: rest => (k, sortAll v) :: sortAllFields rest

end

mutual

def dumpsVal : Json → String
  | .null => "null"
  | .bool true => "true"
  | .bool false => "false"
  | .num n => toString n
  | .str s => jsonQuote s
  | .arr es => "[" ++ dumpsItems es ++ "]"
  | .obj fs => "\x7b" ++ dumpsEntries fs ++ "\x7d"

def dumpsItems : List Json → String
  | [] => ""
  | [j] => dumpsVal j
  | j :: rest => dumpsVal j ++ ", " ++ dumpsItems rest

def dumpsEntries : List (String × Json) → String
  | [] => ""
  | [(k, v)] => jsonQuote k ++ ": " ++ dumpsVal v
  | (k, v) :: rest => jsonQuote k ++ ": " ++ dumpsVal v ++ ", " ++ dumpsEntries rest

end

/-- json.dumps with default separators; sortKeys mirrors sort_keys=True. -/
def dumps (sortKeys : Bool) (j : Json) : String :=
  dumpsVal (if sortKeys then sortAll j else j)

/-! ## The Python str() rendering of a parameter dictionary (repr style),
needed only for the git keyword test in the step loop -/

def pyReprChar (c : Char) : String :=
  if c = '\'' then "\\'" else
  if c = '\\' then "\\\\" else
  if c = '\n' then "\\n" else
  if c = '\r' then "\\r" else
  if c = '\t' then "\\t" else
  String.singleton c

def pyReprStr (s : String) : String :=
  "'" ++ String.join (s.data.map pyReprChar) ++ "'"

mutual

def pyStrVal : Json → String
  | .null => "None"
  | .bool true => "True"
  | .bool false => "False"
  | .num n => toString n
  | .str s => pyReprStr s
  | .arr es => "[" ++ pyStrItems es ++ "]"
  | .obj fs => "\x7b" ++ pyStrEntries fs ++ "\x7d"

def pyStrItems : List Json → String
  | [] => ""
  | [j] => pyStrVal j
  | j :: rest => pyStrVal j ++ ", " ++ pyStrItems rest

def pyStrEntries : List (String × Json) → String
  | [] => ""
  | [(k, v)] => pyReprStr k ++ ": " ++ pyStrVal v
  | (k, v) :: rest => pyReprStr k ++ ": " ++ pyStrVal v ++ ", " ++ pyStrEntries rest

end

/-- The Python str() of an embedded value (dict/list/str/bool/None/int). -/
def pyStr (j : Json) : String := pyStrVal j

/-! ## json.loads: a fuel-indexed recursive-descent parser (the fuel is one
more than the input length, which bounds the nesting).  Numbers are
restricted to integers (no fraction or exponent), which covers every payload
appearing in this development; a fractional literal makes the parse fail. -/

def jsonWs (c : Char) : Bool := c = ' ' || c = '\t' || c = '\n' || c = '\r'

def skipWs (l : List Char) : List Char := l.dropWhile jsonWs

def isHexDigitChar (c : Char) : Bool :=
  c.isDigit || ('a' ≤ c && c ≤ 'f') || ('A' ≤ c && c ≤ 'F')

/-- Body of a JSON string literal, after the opening quote; rejects raw
control characters as the strict Python decoder does. -/
def parseStrChars : List Char → Option (List Char × List Char)
  | [] => none
  | '"' :: rest => some ([], rest)
  | '\\' :: e :: rest =>
    if e = 'u' then
      match rest with
      | a :: b :: c :: d :: rest2 =>
        if isHexDigitChar a && isHexDigitChar b && isHexDigitChar c && isHexDigitChar d then
          match parseStrChars rest2 with
          | some (cs, r) =>
            some (Char.ofNat (4096 * hexVal a + 256 * hexVal b + 16 * hexVal c + hexVal d) :: cs, r)
          | none => none
        else none
      | _ => none
    else
      match escMap e with
      | some c =>
        match parseStrChars rest with
        | some (cs, r) => some (c :: cs, r)
        | none => none
      | none => none
  | c :: rest =>
    if c.toNat < 32 then none
    else
      match parseStrChars rest with
      | some (cs, r) => some (c :: cs, r)
      | none => none
where
  hexVal (c : Char) : Nat :=
    if c.isDigit then c.toNat - 48
    else if 'a' ≤ c && c ≤ 'f' then c.toNat - 87
    else if 'A' ≤ c && c ≤ 'F' then c.toNat - 55
    else 0
  escMap (e : Char) : Option Char :=
    if e = '"' || e = '/' || e = '\\' then some e
    else if e = 'n' then some '\n'
    else if e = 't' then some '\t'
    else if e = 'r' then some '\r'
    else if e = 'b' then some (Char.ofNat 8)
    else if e = 'f' then some (Char.ofNat 12)
    else none

def digitsToNat (ds : List Char) : Nat :=
  ds.foldl (fun a c => a * 10 + (c.toNat - 48)) 0

def parseNatNum (l : List Char) : Option (Nat × List Char) :=
  let digits := l.takeWhile Char.isDigit
  let rest := l.dropWhile Char.isDigit
  if digits.isEmpty then none
  else
    match rest with
    | '.' :: _ => none
    | 'e' :: _ => none
    | 'E' :: _ => none
    | _ => some (digitsToNat digits, rest)

mutual

def parseVal : Nat → List Char → Option (Json × List Char)
  | 0, _ => none
  | fuel + 1, l =>
    match skipWs l with
    | [] => none
    | '{' :: rest =>
      match skipWs rest with
      | '}' :: r2 => some (Json.obj [], r2)
      | l2 => parseObjField fuel l2 []
    | '[' :: rest =>
      match skipWs rest with
      | ']' :: r2 => some (Json.arr [], r2)
      | l2 => parseArrElem fuel l2 []
    | '"' :: rest =>
      match parseStrChars rest with
      | some (cs, r) => some (Json.str (String.mk cs), r)
      | none => none
    | 't' :: rest =>
      if ['r', 'u', 'e'].isPrefixOf rest then some (Json.bool true, rest.drop 3) else none
    | 'f' :: rest =>
      if ['a', 'l', 's', 'e'].isPrefixOf rest then some (Json.bool false, rest.drop 4) else none
    | 'n' :: rest =>
      if ['u', 'l', 'l'].isPrefixOf rest then some (Json.null, rest.drop 3) else none
    | '-' :: rest =>
      match parseNatNum rest with
      | some (n, r) => some (Json.num (-(n : Int)), r)
      | none => none
    | c :: rest =>
      if c.isDigit then
        match parseNatNum (c :: rest) with
        | some (n, r) => some (Json.num (n : Int), r)
        | none => none
      else none

def parseObjField : Nat → List Char → List (String × Json) → Option (Json × List Char)
  | 0, _, _ => none
  | fuel + 1, l, acc =>
    match l with
    | '"' :: rest =>
      match parseStrChars rest with
      | some (kcs, r1) =>
        match skipWs r1 with
        | ':' :: r2 =>
          match parseVal fuel r2 with
          | some (v, r3) =>
            match skipWs r3 with
            | ',' :: r4 => parseObjField fuel (skipWs r4) (kvUpdate acc (String.mk kcs) v)
            | '}' :: r4 => some (Json.obj (kvUpdate acc (String.mk kcs) v), r4)
            | _ => none
          | none => none
        | _ => none
      | none => none
    | _ => none

def parseArrElem : Nat → List Char → List Json → Option (Json × List Char)
  | 0, _, _ => none
  | fuel + 1, l, acc =>
    match parseVal fuel l with
    | some (v, r1) =>
      match skipWs r1 with
      | ',' :: r2 => parseArrElem fuel r2 (acc ++ [v])
      | ']' :: r2 => some (Json.arr (acc ++ [v]), r2)
      | _ => none
    | none => none

end

/-- json.loads: parse one value; trailing non-whitespace is an error. -/
def loads (s : String) : Option Json :=
  match parseVal (s.length + 1) s.data with
  | some (j, rest) => if (skipWs rest).isEmpty then some j else none
  | none => none

/-! ## Protocol codec: extraction of one structured call from the raw reply
(call_kimi_model, src/tools/task_tools.py lines 778 to 844) -/

def beginTag : String := "<FunctionCallBegin>"

def endTag : String := "<FunctionCallEnd>"

/-- The delimiter branch: if both tags occur, take the text between the first
occurrence of the begin tag and the first occurrence of the end tag and strip
it (a Python slice with start past end yields the empty string). -/
def extractDelimited (content : String) : Option String :=
  if containsSub content beginTag && containsSub content endTag then
    match findSub content.data beginTag.data, findSub content.data endTag.data with
    | some bi, some ei =>
      let startIdx := bi + beginTag.length
      some (pyStrip (String.mk ((content.data.drop startIdx).take (ei - startIdx))))
    | _, _ => none
  else none

def isWordChar (c : Char) : Bool := c.isAlphanum || c = '_'

/-- Try to match the regex <(\w+Tool)>(.*?)</\1> at this exact position.
Since the capture group is a word-character run followed directly by a
closing angle bracket, the group must be the whole maximal word run; the
non-greedy body ends at the first occurrence of the matching close tag. -/
def tryTagAt : List Char → Option (String × String)
  | '<' :: rest =>
    let run := rest.takeWhile isWordChar
    if 5 ≤ run.length && ['T', 'o', 'o', 'l'].isSuffixOf run then
      match rest.drop run.length with
      | '>' :: body =>
        match findSub body (['<', '/'] ++ run ++ ['>']) with
        | some j => some (String.mk run, String.mk (body.take j))
        | none => none
      | _ => none
    else none
  | _ => none

/-- Leftmost match of the tool-tag regex over the whole reply. -/
def findTagMatch : List Char → Option (String × String)
  | [] => none
  | c :: rest =>
    match tryTagAt (c :: rest) with
    | some r => some r
    | none => findTagMatch rest

/-- str.split on the first colon of a line. -/
def splitOnceColon (s : String) : Option (String × String) :=
  match findSub s.data [':'] with
  | some i => some (String.mk (s.data.take i), String.mk (s.data.drop (i + 1)))
  | none => none

/-- The best-effort key: value extraction used when the tag body is not
valid JSON: per line, split on the first colon, strip quotes from the key
and quotes, commas and spaces from the value. -/
def kvExtract (s : String) : List (String × Json) :=
  (splitChar (Char.ofNat 10) s).foldl
    (fun params line =>
      let line := pyStrip line
      match splitOnceColon line with
      | some (k, v) =>
        kvUpdate params (stripChars "\"" (pyStrip k)) (Json.str (stripChars "\", " (pyStrip v)))
      | none => params)
    []

/-- The tag branch: rebuild a canonical call payload from the tool tag, via
JSON if the body parses, else via key: value extraction. -/
def tagFuncCallStr (content : String) : Option String :=
  match findTagMatch content.data with
  | none => none
  | some (toolName, body) =>
    let ps := pyStrip body
    match loads ps with
    | some p =>
      some (dumps false (Json.obj [("name", Json.str toolName), ("parameters", p)]))
    | none =>
      some (dumps false (Json.obj [("name", Json.str toolName),
        ("parameters", Json.obj (kvExtract ps))]))

/-- The candidate call payload: the delimiter branch first; an empty
extraction is falsy in Python and falls through to the tag branch. -/
def funcCallString (content : String) : Option String :=
  match extractDelimited content with
  | some s => if s = "" then tagFuncCallStr content else some s
  | none => tagFuncCallStr content

/-- Result of decoding one reply.  parseFailed is the explicit protocol
error returned when the candidate payload is not valid JSON; exnError models
the KeyError or TypeError raised when the parsed payload is not an object
with the two required fields, which the generic exception handler of
call_kimi_model turns into an error reply as well. -/
inductive Decoded where
  | toolUse (name : Json) (input : Json)
  | parseFailed (payload : String)
  | text (content : String)
  | exnError

def decodeResponse (content : String) : Decoded :=
  match funcCallString content with
  | none => .text content
  | some s =>
    match loads s with
    | none => .parseFailed s
    | some (Json.obj fs) =>
      match lookupField fs "name", lookupField fs "parameters" with
      | some n, some p => .toolUse n p
      | _, _ => .exnError
    | some _ => .exnError

/-! ## Tool registry entries as the step loop sees them: a name and a
validation contract (execution itself is recorded as an event) -/

structure ValidationResultM where
  result : Bool
  message : Option String

structure ToolM where
  name : String
  validateInput : Json → ValidationResultM

/-- BashTool.validate_input (src/tools/code_tools.py lines 308 to 328). -/
def dangerousCmds : List String := ["sudo", "rm -rf", "mv /", "cp /", "dd ", "shutdown", "rm -r"]

def bashToolValidate (input : Json) : ValidationResultM :=
  match input with
  | Json.obj fs =>
    match lookupField fs "command" with
    | some (Json.str cmd) =>
      match dangerousCmds.find? (fun d => containsSub cmd d) with
      | some d => ⟨false, some ("Potentially dangerous command rejected: " ++ d)⟩
      | none =>
        if containsSub cmd "python " && !containsSub cmd "python3 " then
          ⟨true, some "Warning: Consider using 'python3' instead of 'python' for compatibility"⟩
        else ⟨true, none⟩
    | _ => ⟨false, some "Missing required parameter: 'command'"⟩
  | _ => ⟨false, some "Missing required parameter: 'command'"⟩

def bashToolM : ToolM := ⟨"BashTool", bashToolValidate⟩

/-! ## The orchestrator step loop (query, src/tools/task_tools.py lines 544
to 739), embedded as a recursive function over a script of decoded model
responses.  The embedding covers runs in which no user message matches the
fix-git path pattern, so target_path is None; the git keyword branch is
still present: with a non-empty executed set it evaluates t.name on the
strings stored in executed_tools and raises AttributeError, which the
embedding records as a crashed exit.  max_tool_uses_per_step keeps its
default value 1, so the per-round tool-use guard is always taken. -/

inductive ModelResp where
  | error (msg : String)
  | text (s : String)
  | toolUse (name : String) (input : Json)

inductive ExitReason where
  | fatalError
  | textReturn
  | crashed
  | toolMissing
  | validationFailed
  | stepLimit
  | scriptEnd
deriving DecidableEq

structure QueryResult where
  rounds : Nat
  steps : Nat
  execs : List String
  skips : List String
  shimEx : Nat
  completed : Bool
  exit : ExitReason
deriving DecidableEq

/-- The canonical de-duplication key (query line 655). -/
def toolKey (name : String) (input : Json) : String :=
  name ++ ":" ++ dumps true input

/-- The git keyword test of query line 614. -/
def gitRelated (name : String) (input : Json) : Bool :=
  containsSub (lowerStr name) "git" || containsSub (lowerStr (pyStr input)) "git"

def runQuery (tools : List ToolM) (maxSteps : Nat) : Nat → List String → List ModelResp → QueryResult
  | step, _, [] =>
    if step < maxSteps then ⟨0, step, [], [], 0, false, .scriptEnd⟩
    else ⟨0, step, [], [], 0, false, .stepLimit⟩
  | step, executed, r :: rest =>
    if step < maxSteps then
      match r with
      | .error _ => ⟨1, step + 1, [], [], 0, false, .fatalError⟩
      | .text s => ⟨1, step + 1, [], [], 0, decide (50 < (pyStrip s).length), .textReturn⟩
      | .toolUse nm input =>
        if gitRelated nm input && !executed.isEmpty then
          ⟨1, step + 1, [], [], 0, false, .crashed⟩
        else
          let key := toolKey nm input
          if executed.contains key then
            let res := runQuery tools maxSteps (step + 1) executed rest
            ⟨res.rounds + 1, res.steps, res.execs, key :: res.skips, res.shimEx, res.completed, res.exit⟩
          else
            let executed2 := key :: executed
            match tools.find? (fun t => t.name = nm) with
            | none => ⟨1, step + 1, [], [], 0, false, .toolMissing⟩
            | some tool =>
              let v := tool.validateInput input
              if v.result then
                let res := runQuery tools maxSteps (step + 1) executed2 rest
                ⟨res.rounds + 1, res.steps, key :: res.execs, res.skips, res.shimEx, res.completed, res.exit⟩
              else
                if containsSub (v.message.getD "") "Not a file" && containsSub nm "FileReadTool" then
                  if (tools.find? (fun t => t.name = "BashTool")).isSome then
                    let res := runQuery tools maxSteps (step + 1) executed2 rest
                    ⟨res.rounds + 1, res.steps, res.execs, res.skips, res.shimEx + 1, res.completed, res.exit⟩
                  else
                    let res := runQuery tools maxSteps (step + 1) executed2 rest
                    ⟨res.rounds + 1, res.steps, key :: res.execs, res.skips, res.shimEx, res.completed, res.exit⟩
                else ⟨1, step + 1, [], [], 0, false, .validationFailed⟩
    else ⟨0, step, [], [], 0, false, .stepLimit⟩

/-! ## The retrying invoker (call_kimi_model, src/tools/task_tools.py lines
760 to 904) over a script of per-attempt outcomes.  A rateLimited outcome
carries the optional number of seconds named by a try-again-after phrase in
the error message; apiError covers APIError, APITimeoutError and
APIConnectionError; otherExn is any other exception. -/

def API_max_retries : Nat := 5

def API_initial_retry_delay : ℚ := 5

def API_max_retry_delay : ℚ := 10

def API_rpm_limit : Nat := 3

inductive AttemptOutcome where
  | success (content : String)
  | rateLimited (retryAfter : Option Nat)
  | apiError
  | otherExn

inductive InvokeOutcome where
  | ok (d : Decoded)
  | fatalOther
  | fatalExhausted
  | scriptEnd

def InvokeOutcome.isOk : InvokeOutcome → Bool
  | .ok _ => true
  | _ => false

structure InvokeTrace where
  outcome : InvokeOutcome
  attempts : Nat
  waits : Nat
  records : Nat
  sleeps : List ℚ

/-- The exponential backoff wait of the two retry branches. -/
def backoffWait (retryCount : Nat) : ℚ :=
  min (API_initial_retry_delay * 2 ^ (retryCount - 1)) API_max_retry_delay

/-- Rate-limit branch wait: an explicit try-again-after duration takes
precedence (plus half a second), else the backoff formula. -/
def rateLimitWait (retryCount : Nat) (retryAfter : Option Nat) : ℚ :=
  match retryAfter with
  | some secs => (secs : ℚ) + 1 / 2
  | none => backoffWait retryCount

/-- One run of the retry loop, starting from a given retry_count.  Each
consumed script entry is one network attempt: wait_for_rate_limit runs
before it, record_request_timestamp runs only when the attempt returns a
completion.  The loop sleeps before testing whether the retry budget is
exhausted, so a final failed attempt still contributes its wait to sleeps. -/
def call_kimi_model (retryCount : Nat) : List AttemptOutcome → InvokeTrace
  | [] =>
    if retryCount < API_max_retries then ⟨.scriptEnd, 0, 0, 0, []⟩
    else ⟨.fatalExhausted, 0, 0, 0, []⟩
  | o :: rest =>
    if retryCount < API_max_retries then
      match o with
      | .success content => ⟨.ok (decodeResponse content), 1, 1, 1, []⟩
      | .rateLimited ra =>
        let w := rateLimitWait (retryCount + 1) ra
        if API_max_retries ≤ retryCount + 1 then ⟨.fatalExhausted, 1, 1, 0, [w]⟩
        else
          let t := call_kimi_model (retryCount + 1) rest
          ⟨t.outcome, t.attempts + 1, t.waits + 1, t.records, w :: t.sleeps⟩
      | .apiError =>
        let w := backoffWait (retryCount + 1)
        if API_max_retries ≤ retryCount + 1 then ⟨.fatalExhausted, 1, 1, 0, [w]⟩
        else
          let t := call_kimi_model (retryCount + 1) rest
          ⟨t.outcome, t.attempts + 1, t.waits + 1, t.records, w :: t.sleeps⟩
      | .otherExn => ⟨.fatalOther, 1, 1, 0, []⟩
    else ⟨.fatalExhausted, 0, 0, 0, []⟩

def isRetryable : AttemptOutcome → Bool
  | .rateLimited _ => true
  | .apiError => true
  | _ => false

/-- The wait the loop performs after failed attempt number k (1-based). -/
def expectedWait (k : Nat) : AttemptOutcome → ℚ
  | .rateLimited ra => rateLimitWait k ra
  | _ => backoffWait k

/-! ## The rate limiter (src/tools/base.py lines 86 to 113).  Timestamps are
rationals.  clean_old_timestamps is the lazy purge; a send is permitted
exactly when, after purging at the permit time, fewer than capacity recorded
timestamps remain; the timestamp of a completed send is recorded at its
response time, at or after the permit time. -/

def clean_old_timestamps (now : ℚ) (tss : List ℚ) : List ℚ :=
  tss.filter (fun ts => decide (now - ts < 60))

/-- The first k recorded response timestamps. -/
def recordsBefore (r : Nat → ℚ) (k : Nat) : List ℚ :=
  (List.range k).map r

/-- Exit condition of the wait_for_rate_limit loop for send number k, with
p the permit times and r the record times of the sends. -/
def gateOpen (cap : Nat) (p r : Nat → ℚ) (k : Nat) : Prop :=
  (clean_old_timestamps (p k) (recordsBefore r k)).length < cap

/-- Number of permitted sends falling in the sliding window (w, w + 60]. -/
def windowCount (p : Nat → ℚ) (n : Nat) (w : ℚ) : Nat :=
  ((List.range n).filter (fun i => decide (w < p i) && decide (p i ≤ w + 60))).length

/-! ## Transcript messages and normalization (src/tools/base.py lines 29 to
36 and 162 to 200).  A system or user message carries a content string; an
assistant message carries its block list (the message.content field). -/

structure TextBlockM where
  type : String
  text : Option String := none
  id : Option String := none
  name : Option String := none
  input : Option Json := none
  output : Option String := none

inductive Message where
  | system (content : String)
  | user (content : String)
  | assistant (blocks : List TextBlockM)

structure NormEntry where
  role : String
  content : String
deriving DecidableEq

def optStrJson : Option String → Json
  | some s => Json.str s
  | none => Json.null

def optJson : Option Json → Json
  | some j => j
  | none => Json.null

/-- Rendering of one assistant message: if any block is a tool_use block,
the first such block becomes one serialized call wrapped in the delimiter
tokens; otherwise the non-empty text fields are joined with newlines. -/
def renderAssistant (blocks : List TextBlockM) : String :=
  if blocks.any (fun b => b.type = "tool_use") then
    match blocks.filter (fun b => b.type = "tool_use") with
    | [] => ""
    | b :: _ =>
      "<FunctionCallBegin>" ++
        dumps false (Json.obj [("name", optStrJson b.name), ("parameters", optJson b.input)]) ++
        "<FunctionCallEnd>"
  else
    String.intercalate "\n" (blocks.filterMap (fun b =>
      match b.text with
      | some t => if t = "" then none else some t
      | none => none))

/-- Content of the first system message, if any. -/
def firstSystemContent (msgs : List Message) : Option String :=
  (msgs.filterMap (fun m =>
    match m with
    | .system c => some c
    | _ => none)).head?

def normalizeOne : Message → Option NormEntry
  | .system _ => none
  | .user c => some ⟨"user", c⟩
  | .assistant bs => some ⟨"assistant", renderAssistant bs⟩

/-- normalize_messages: one leading system entry built from the first
system message, then one entry per user or assistant message in order. -/
def normalize_messages (msgs : List Message) : List NormEntry :=
  (match firstSystemContent msgs with
   | some c => [⟨"system", c⟩]
   | none => []) ++
  msgs.filterMap normalizeOne

/-- Contents of the user messages in order. -/
def userContents (msgs : List Message) : List String :=
  msgs.filterMap (fun m =>
    match m with
    | .user c => some c
    | _ => none)

/-- Rendered assistant messages in order. -/
def assistantRenders (msgs : List Message) : List String :=
  msgs.filterMap (fun m =>
    match m with
    | .assistant bs => some (renderAssistant bs)
    | _ => none)

/-! ## The tool catalog (get_tools, get_read_only_tools, get_task_tools,
src/tools/task_tools.py lines 463 to 490), with each is_read_only flag
taken from the tool class in src/tools. -/

structure ToolInfo where
  name : String
  readOnly : Bool
deriving DecidableEq

def get_tools : List ToolInfo :=
  [⟨"GrepTool", true⟩, ⟨"FileReadTool", true⟩, ⟨"GlobTool", true⟩,
   ⟨"BashTool", false⟩, ⟨"FileEditTool", false⟩, ⟨"FileWriteTool", false⟩,
   ⟨"ThinkTool", true⟩, ⟨"TodoWriteTool", false⟩, ⟨"URLFetcherTool", true⟩,
   ⟨"NotebookEditTool", false⟩, ⟨"WebSearchTool", true⟩]

def get_read_only_tools : List ToolInfo :=
  get_tools.filter (fun t => t.readOnly)

def get_task_tools (safeMode : Bool) : List ToolInfo :=
  (if safeMode then get_read_only_tools else get_tools).filter (fun t => t.name ≠ "TaskTool")

/-! ## Claim theorems -/

/-- C10: for every value of safe_mode, the registry handed to a sub-agent
run by get_task_tools never contains TaskTool, and when safe_mode is true
every tool in it is read-only. -/
theorem claim_C10 :
    (∀ sm : Bool, ∀ t ∈ get_task_tools sm, t.name ≠ "TaskTool") ∧
    (∀ t ∈ get_task_tools true, t.readOnly = true) := by
  refine ⟨fun sm => ?_, by decide⟩
  cases sm <;> decide

/-- Witness for C10 at a concrete member of the safe-mode registry. -/
theorem claim_C10_witness :
    (⟨"GrepTool", true⟩ : ToolInfo).name ≠ "TaskTool" ∧
    (⟨"GrepTool", true⟩ : ToolInfo).readOnly = true :=
  ⟨claim_C10.1 true ⟨"GrepTool", true⟩ (by decide),
   claim_C10.2 ⟨"GrepTool", true⟩ (by decide)⟩

/-- C4: a reply whose delimiter pair wraps a JSON object carrying name and
parameters fields decodes to a call to exactly that name with exactly those
parameters, whatever else the reply contains (in particular the delimiter
branch wins over any same-named tag form elsewhere in the reply, since no
hypothesis about tag matches is needed). -/
theorem claim_C4 (content p : String) (fs : List (String × Json)) (nm ps : Json)
    (hex : extractDelimited content = some p) (hne : p ≠ "")
    (hload : loads p = some (Json.obj fs))
    (hname : lookupField fs "name" = some nm)
    (hparams : lookupField fs "parameters" = some ps) :
    decodeResponse content = .toolUse nm ps := by
  unfold decodeResponse funcCallString
  rw [hex]
  simp only [hne, if_false, hload, hname, hparams]

/-- The example reply named by the claim. -/
def egContentC4 : String :=
  "<FunctionCallBegin>\x7b\"name\":\"GlobTool\",\"parameters\":\x7b\"pattern\":\"*.py\"\x7d\x7d<FunctionCallEnd>"

/-- A reply holding a same-named tag form first and the delimiter form after
it: the delimiter form still decides the decoded call. -/
def egContentC4b : String :=
  "<GlobTool>\x7b\"pattern\": \"a.py\"\x7d</GlobTool> then <FunctionCallBegin>\x7b\"name\":\"GlobTool\",\"parameters\":\x7b\"pattern\":\"*.py\"\x7d\x7d<FunctionCallEnd>"

/-- Witness for C4: the claim example decodes to GlobTool with the exact
pattern parameter, and the delimiter form takes precedence over a tag form. -/
theorem claim_C4_witness :
    decodeResponse egContentC4 =
      .toolUse (Json.str "GlobTool") (Json.obj [("pattern", Json.str "*.py")]) ∧
    decodeResponse egContentC4b =
      .toolUse (Json.str "GlobTool") (Json.obj [("pattern", Json.str "*.py")]) :=
  ⟨claim_C4 egContentC4
      "\x7b\"name\":\"GlobTool\",\"parameters\":\x7b\"pattern\":\"*.py\"\x7d\x7d"
      [("name", Json.str "GlobTool"), ("parameters", Json.obj [("pattern", Json.str "*.py")])]
      (Json.str "GlobTool") (Json.obj [("pattern", Json.str "*.py")])
      (by rfl) (by decide) (by rfl) (by rfl) (by rfl),
   claim_C4 egContentC4b
      "\x7b\"name\":\"GlobTool\",\"parameters\":\x7b\"pattern\":\"*.py\"\x7d\x7d"
      [("name", Json.str "GlobTool"), ("parameters", Json.obj [("pattern", Json.str "*.py")])]
      (Json.str "GlobTool") (Json.obj [("pattern", Json.str "*.py")])
      (by rfl) (by decide) (by rfl) (by rfl) (by rfl)⟩

/-- C5: a non-empty candidate payload between the delimiters that fails
JSON parsing decodes to the explicit parse-error outcome, never to a text
reply; and an error-typed model response ends the run in one round with a
fatal exit. -/
theorem claim_C5 (content p : String)
    (hex : extractDelimited content = some p) (hne : p ≠ "") (hload : loads p = none) :
    decodeResponse content = .parseFailed p ∧
    (∀ s, decodeResponse content ≠ .text s) ∧
    (∀ (tools : List ToolM) (maxSteps step : Nat) (executed : List String)
        (msg : String) (rest : List ModelResp), step < maxSteps →
      (runQuery tools maxSteps step executed (ModelResp.error msg :: rest)).exit = .fatalError ∧
      (runQuery tools maxSteps step executed (ModelResp.error msg :: rest)).rounds = 1) := by
  have hdec : decodeResponse content = .parseFailed p := by
    unfold decodeResponse funcCallString
    rw [hex]
    simp only [hne, if_false, hload]
  refine ⟨hdec, ?_, ?_⟩
  · intro s
    rw [hdec]
    intro hcontra
    exact Decoded.noConfusion hcontra
  · intro tools maxSteps step executed msg rest h
    constructor <;> simp [runQuery, h]

/-- A reply with broken JSON inside the delimiters. -/
def egContentC5 : String :=
  "<FunctionCallBegin>\x7b\"name\": \"GlobTool\", \"parameters\": <FunctionCallEnd>"

/-- Witness for C5 at a concrete broken reply and a concrete error round. -/
theorem claim_C5_witness :
    decodeResponse egContentC5 = .parseFailed "\x7b\"name\": \"GlobTool\", \"parameters\":" ∧
    (runQuery [] 3 0 [] [ModelResp.error "parse error"]).exit = .fatalError :=
  ⟨(claim_C5 egContentC5 "\x7b\"name\": \"GlobTool\", \"parameters\":"
      (by rfl) (by decide) (by rfl)).1,
   ((claim_C5 egContentC5 "\x7b\"name\": \"GlobTool\", \"parameters\":"
      (by rfl) (by decide) (by rfl)).2.2 [] 3 0 [] "parse error" [] (by decide)).1⟩

/-- One retryable failed attempt with retry budget left: the loop waits for
a slot, performs the attempt, sleeps the branch wait and re-enters. -/
theorem call_kimi_retry_step (o : AttemptOutcome) (rest : List AttemptOutcome) (rc : Nat)
    (hr : isRetryable o = true) (hlt : rc + 1 < API_max_retries) :
    call_kimi_model rc (o :: rest) =
      ⟨(call_kimi_model (rc + 1) rest).outcome,
       (call_kimi_model (rc + 1) rest).attempts + 1,
       (call_kimi_model (rc + 1) rest).waits + 1,
       (call_kimi_model (rc + 1) rest).records,
       expectedWait (rc + 1) o :: (call_kimi_model (rc + 1) rest).sleeps⟩ := by
  have h1 : rc < API_max_retries := Nat.lt_of_succ_lt hlt
  have h2 : ¬ API_max_retries ≤ rc + 1 := Nat.not_le_of_lt hlt
  cases o with
  | rateLimited ra => simp [call_kimi_model, h1, h2, expectedWait]
  | apiError => simp [call_kimi_model, h1, h2, expectedWait]
  | success c => exact absurd hr (by simp [isRetryable])
  | otherExn => exact absurd hr (by simp [isRetryable])

/-- The last retryable failed attempt: the loop still sleeps, then returns
the terminal retry-exhaustion error. -/
theorem call_kimi_retry_last (o : AttemptOutcome) (rest : List AttemptOutcome) (rc : Nat)
    (hr : isRetryable o = true) (heq : rc + 1 = API_max_retries) :
    call_kimi_model rc (o :: rest) =
      ⟨.fatalExhausted, 1, 1, 0, [expectedWait (rc + 1) o]⟩ := by
  have h1 : rc < API_max_retries := by omega
  have h2 : API_max_retries ≤ rc + 1 := Nat.le_of_eq heq.symm
  cases o with
  | rateLimited ra => simp [call_kimi_model, h1, h2, expectedWait]
  | apiError => simp [call_kimi_model, h1, h2, expectedWait]
  | success c => exact absurd hr (by simp [isRetryable])
  | otherExn => exact absurd hr (by simp [isRetryable])

/-- C6: five consecutive retryable responses exhaust the five-attempt cap:
the invoker returns the terminal retry-exhaustion error after exactly five
attempts with no recorded send, and the k-th retry waits the backoff value
min(initial_delay * 2 ^ (k - 1), max_delay) unless the rate-limit error
carries a try-again-after duration, which takes precedence. -/
theorem claim_C6 (o1 o2 o3 o4 o5 : AttemptOutcome) (rest : List AttemptOutcome)
    (h1 : isRetryable o1 = true) (h2 : isRetryable o2 = true)
    (h3 : isRetryable o3 = true) (h4 : isRetryable o4 = true)
    (h5 : isRetryable o5 = true) :
    call_kimi_model 0 (o1 :: o2 :: o3 :: o4 :: o5 :: rest) =
      ⟨.fatalExhausted, 5, 5, 0,
       [expectedWait 1 o1, expectedWait 2 o2, expectedWait 3 o3,
        expectedWait 4 o4, expectedWait 5 o5]⟩ := by
  rw [call_kimi_retry_step o1 _ 0 h1 (by decide),
      call_kimi_retry_step o2 _ 1 h2 (by decide),
      call_kimi_retry_step o3 _ 2 h3 (by decide),
      call_kimi_retry_step o4 _ 3 h4 (by decide),
      call_kimi_retry_last o5 rest 4 h5 (by decide)]

/-- Witness for C6: a mixed burst of five retryable errors, with the two
explicit retry-after durations overriding the backoff formula. -/
theorem claim_C6_witness :
    call_kimi_model 0
      [AttemptOutcome.rateLimited (some 3), AttemptOutcome.apiError,
       AttemptOutcome.rateLimited none, AttemptOutcome.apiError,
       AttemptOutcome.rateLimited (some 7)] =
      ⟨.fatalExhausted, 5, 5, 0, [7 / 2, 10, 10, 10, 15 / 2]⟩ := by
  rw [claim_C6 _ _ _ _ _ [] (by rfl) (by rfl) (by rfl) (by rfl) (by rfl)]
  norm_num [expectedWait, rateLimitWait, backoffWait,
    API_initial_retry_delay, API_max_retry_delay]

/-- C9, amended: every network attempt is preceded by exactly one
wait_for_rate_limit call, while record_request_timestamp runs exactly once
per successful attempt and never for a failed attempt. -/
theorem claim_C9 (rc : Nat) (script : List AttemptOutcome) :
    (call_kimi_model rc script).waits = (call_kimi_model rc script).attempts ∧
    (call_kimi_model rc script).records =
      (if (call_kimi_model rc script).outcome.isOk then 1 else 0) := by
  induction script generalizing rc with
  | nil =>
    by_cases h : rc < API_max_retries <;>
      simp [call_kimi_model, h, InvokeOutcome.isOk]
  | cons o rest ih =>
    by_cases h : rc < API_max_retries
    · cases o with
      | success c => simp [call_kimi_model, h, InvokeOutcome.isOk]
      | rateLimited ra =>
        by_cases h2 : API_max_retries ≤ rc + 1
        · simp [call_kimi_model, h, h2, InvokeOutcome.isOk]
        · have := ih (rc + 1)
          simp [call_kimi_model, h, h2]
          exact this
      | apiError =>
        by_cases h2 : API_max_retries ≤ rc + 1
        · simp [call_kimi_model, h, h2, InvokeOutcome.isOk]
        · have := ih (rc + 1)
          simp [call_kimi_model, h, h2]
          exact this
      | otherExn => simp [call_kimi_model, h, InvokeOutcome.isOk]
    · simp [call_kimi_model, h, InvokeOutcome.isOk]

/-- Counterexample to C9 as stated: one rate-limited failure followed by a
success makes two attempts (two rate-limit waits) but only one recorded
timestamp, so record_request_timestamp does not run once per attempt. -/
theorem claim_C9_cex :
    (call_kimi_model 0 [AttemptOutcome.rateLimited none, AttemptOutcome.success "hi"]).attempts = 2 ∧
    (call_kimi_model 0 [AttemptOutcome.rateLimited none, AttemptOutcome.success "hi"]).waits = 2 ∧
    (call_kimi_model 0 [AttemptOutcome.rateLimited none, AttemptOutcome.success "hi"]).records = 1 ∧
    (call_kimi_model 0 [AttemptOutcome.rateLimited none, AttemptOutcome.success "hi"]).records ≠
      (call_kimi_model 0 [AttemptOutcome.rateLimited none, AttemptOutcome.success "hi"]).attempts := by
  refine ⟨by decide, by decide, by decide, by decide⟩

theorem runQuery_bounds (tools : List ToolM) (maxSteps : Nat) :
    ∀ (script : List ModelResp) (step : Nat) (executed : List String), step ≤ maxSteps →
      (runQuery tools maxSteps step executed script).steps =
        step + (runQuery tools maxSteps step executed script).rounds ∧
      (runQuery tools maxSteps step executed script).steps ≤ maxSteps ∧
      (maxSteps - step ≤ script.length →
        (runQuery tools maxSteps step executed script).exit ≠ .scriptEnd) := by
  intro script
  induction script with
  | nil =>
    intro step executed hle
    by_cases h : step < maxSteps <;> simp [runQuery, h] <;> omega
  | cons r rest ih =>
    intro step executed hle
    by_cases h : step < maxSteps
    case neg =>
      simp [runQuery, h]
      omega
    case pos =>
      have hstep : step + 1 ≤ maxSteps := h
      cases r with
      | error msg =>
        simp [runQuery, h]
        omega
      | text s =>
        simp [runQuery, h]
        omega
      | toolUse nm input =>
        simp only [runQuery, if_pos h]
        by_cases hg : (gitRelated nm input && !executed.isEmpty) = true
        · simp [hg]
          omega
        · rw [Bool.not_eq_true] at hg
          simp only [hg, Bool.false_eq_true, if_false]
          by_cases hc : executed.contains (toolKey nm input) = true
          · simp only [hc, if_true]
            obtain ⟨ih1, ih2, ih3⟩ := ih (step + 1) executed hstep
            refine ⟨by omega, ih2, fun hlen => ih3 ?_⟩
            simp only [List.length_cons] at hlen
            omega
          · rw [Bool.not_eq_true] at hc
            simp only [hc, Bool.false_eq_true, if_false]
            cases hfind : tools.find? (fun t => t.name = nm) with
            | none =>
              simp [hfind]
              omega
            | some tool =>
              simp only [hfind]
              by_cases hv : (tool.validateInput input).result = true
              · simp only [hv, if_true]
                obtain ⟨ih1, ih2, ih3⟩ := ih (step + 1) (toolKey nm input :: executed) hstep
                refine ⟨by omega, ih2, fun hlen => ih3 ?_⟩
                simp only [List.length_cons] at hlen
                omega
              · rw [Bool.not_eq_true] at hv
                simp only [hv, Bool.false_eq_true, if_false]
                by_cases hs : (containsSub ((tool.validateInput input).message.getD "") "Not a file" &&
                    containsSub nm "FileReadTool") = true
                · simp only [hs, if_true]
                  by_cases hb : (tools.find? (fun t => t.name = "BashTool")).isSome = true
                  · simp only [hb, if_true]
                    obtain ⟨ih1, ih2, ih3⟩ := ih (step + 1) (toolKey nm input :: executed) hstep
                    refine ⟨by omega, ih2, fun hlen => ih3 ?_⟩
                    simp only [List.length_cons] at hlen
                    omega
                  · rw [Bool.not_eq_true] at hb
                    simp only [hb, Bool.false_eq_true, if_false]
                    obtain ⟨ih1, ih2, ih3⟩ := ih (step + 1) (toolKey nm input :: executed) hstep
                    refine ⟨by omega, ih2, fun hlen => ih3 ?_⟩
                    simp only [List.length_cons] at hlen
                    omega
                · rw [Bool.not_eq_true] at hs
                  simp only [hs, Bool.false_eq_true, if_false]
                  simp
                  omega

/-- C1: from a fresh run with max_steps at least 1, the step counter equals
the number of rounds (it increments exactly once per round regardless of
branch), both stay at or below max_steps, and when the response script is
long enough the run ends in a genuine terminal outcome within max_steps
rounds. -/
theorem claim_C1 (tools : List ToolM) (maxSteps : Nat) (script : List ModelResp)
    (hmax : 1 ≤ maxSteps) :
    (runQuery tools maxSteps 0 [] script).steps = (runQuery tools maxSteps 0 [] script).rounds ∧
    (runQuery tools maxSteps 0 [] script).rounds ≤ maxSteps ∧
    (runQuery tools maxSteps 0 [] script).steps ≤ maxSteps ∧
    (maxSteps ≤ script.length → (runQuery tools maxSteps 0 [] script).exit ≠ .scriptEnd) := by
  obtain ⟨h1, h2, h3⟩ := runQuery_bounds tools maxSteps script 0 [] (Nat.zero_le _)
  exact ⟨by omega, by omega, h2, fun hl => h3 (by omega)⟩

/-- Witness for C1 on a one-round run. -/
theorem claim_C1_witness :
    (runQuery [] 1 0 [] [ModelResp.text "done"]).steps =
      (runQuery [] 1 0 [] [ModelResp.text "done"]).rounds ∧
    (runQuery [] 1 0 [] [ModelResp.text "done"]).rounds ≤ 1 :=
  ⟨(claim_C1 [] 1 [ModelResp.text "done"] (by decide)).1,
   (claim_C1 [] 1 [ModelResp.text "done"] (by decide)).2.1⟩

/-- A call whose str(input) mentions git. -/
def gitCmd : Json := Json.obj [("command", Json.str "git status")]

def gitScript : List ModelResp :=
  [ModelResp.toolUse "BashTool" gitCmd, ModelResp.toolUse "BashTool" gitCmd]

/-- A call free of the git keyword. -/
def lsCmd : Json := Json.obj [("command", Json.str "ls -la")]

def lsScript : List ModelResp :=
  [ModelResp.toolUse "BashTool" lsCmd, ModelResp.toolUse "BashTool" lsCmd]

/-- C3: evaluation at the failing input.  Repeating a git-mentioning call
executes the capability once but then crashes (the has_cd generator reads
t.name from the strings stored in executed_tools, an AttributeError) with no
redundant-call notice; repeating a git-free call shows the intended
behaviour the claim describes: one execution, then a skip notice and the
loop continues past the repeat. -/
theorem claim_C3 :
    (runQuery [bashToolM] 5 0 [] gitScript).execs = [toolKey "BashTool" gitCmd] ∧
    (runQuery [bashToolM] 5 0 [] gitScript).skips = [] ∧
    (runQuery [bashToolM] 5 0 [] gitScript).exit = .crashed ∧
    (runQuery [bashToolM] 5 0 [] lsScript).execs = [toolKey "BashTool" lsCmd] ∧
    (runQuery [bashToolM] 5 0 [] lsScript).skips = [toolKey "BashTool" lsCmd] ∧
    (runQuery [bashToolM] 5 0 [] lsScript).exit = .scriptEnd := by
  decide

/-- C8, amended: a text response always ends the run in that round, whatever
its length; the minimal length threshold only decides whether the
completed_analysis flag is set, so text at or below the threshold ends the
run with the flag still false. -/
theorem claim_C8 (tools : List ToolM) (maxSteps step : Nat) (executed : List String)
    (s : String) (rest : List ModelResp) (h : step < maxSteps) :
    runQuery tools maxSteps step executed (ModelResp.text s :: rest) =
      ⟨1, step + 1, [], [], 0, decide (50 < (pyStrip s).length), .textReturn⟩ ∧
    ((pyStrip s).length ≤ 50 →
      (runQuery tools maxSteps step executed (ModelResp.text s :: rest)).completed = false) := by
  have hq : runQuery tools maxSteps step executed (ModelResp.text s :: rest) =
      ⟨1, step + 1, [], [], 0, decide (50 < (pyStrip s).length), .textReturn⟩ := by
    simp [runQuery, h]
  exact ⟨hq, fun hlen => by rw [hq]; exact decide_eq_false (by omega)⟩

/-- Witness for C8 on a short text reply with budget left. -/
theorem claim_C8_witness :
    runQuery [] 5 0 [] [ModelResp.text "ok"] =
      ⟨1, 1, [], [], 0, decide (50 < (pyStrip "ok").length), .textReturn⟩ ∧
    (runQuery [] 5 0 [] [ModelResp.text "ok"]).completed = false :=
  ⟨(claim_C8 [] 5 0 [] "ok" [] (by decide)).1,
   (claim_C8 [] 5 0 [] "ok" [] (by decide)).2 (by decide)⟩

def shortTextScript : List ModelResp :=
  [ModelResp.text "ok", ModelResp.text "reply of a second round the claim expects to happen"]

/-- Counterexample to C8 as stated: a decoded text reply of length at or
below the threshold does not make the loop continue; with four budgeted
rounds left and another scripted response available, the run still ends
after one round (the return after the threshold test is unconditional). -/
theorem claim_C8_cex :
    (runQuery [] 5 0 [] shortTextScript).rounds = 1 ∧
    (runQuery [] 5 0 [] shortTextScript).exit = .textReturn ∧
    (runQuery [] 5 0 [] shortTextScript).completed = false ∧
    (pyStrip "ok").length ≤ 50 ∧ shortTextScript.length = 2 ∧ (1 : Nat) < 5 := by
  decide

/-- Filtering with a pointwise stronger predicate keeps at most as many
elements. -/
theorem length_filter_le_of_imp {α : Type} (l : List α) (p q : α → Bool)
    (h : ∀ a ∈ l, p a = true → q a = true) :
    (l.filter p).length ≤ (l.filter q).length := by
  induction l with
  | nil => simp
  | cons a t ih =>
    have iht := ih (fun x hx hp => h x (List.mem_cons_of_mem a hx) hp)
    by_cases hp : p a = true
    · have hq := h a (List.mem_cons_self a t) hp
      simp [List.filter_cons, hp, hq]
      omega
    · rw [Bool.not_eq_true] at hp
      by_cases hq : q a = true
      · simp [List.filter_cons, hp, hq]
        omega
      · rw [Bool.not_eq_true] at hq
        simp [List.filter_cons, hp, hq]
        exact iht

/-- C2: for a sequence of sends gated by the rate limiter, with permit time
p i and recorded response time r i for send i (the permit precedes the
record, records precede the next permit), if every send was permitted only
when the lazily purged record list held fewer than capacity entries, then
no sliding 60-second window (w, w + 60] holds more than capacity permitted
sends. -/
theorem claim_C2 (cap n : Nat) (p r : Nat → ℚ)
    (hpr : ∀ i, p i ≤ r i)
    (hseq : ∀ i, r i ≤ p (i + 1))
    (hgate : ∀ k, k < n → gateOpen cap p r k) :
    ∀ w, windowCount p n w ≤ cap := by
  induction n with
  | zero =>
    intro w
    simp [windowCount]
  | succ n ih =>
    intro w
    have ihn := ih (fun k hk => hgate k (Nat.lt_succ_of_lt hk))
    unfold windowCount
    rw [List.range_succ, List.filter_append, List.length_append]
    by_cases hwin : (decide (w < p n) && decide (p n ≤ w + 60)) = true
    · have hw : w < p n ∧ p n ≤ w + 60 := by
        simpa [Bool.and_eq_true, decide_eq_true_eq] using hwin
      have hbound : ((List.range n).filter
          (fun i => decide (w < p i) && decide (p i ≤ w + 60))).length ≤
          (clean_old_timestamps (p n) (recordsBefore r n)).length := by
        unfold clean_old_timestamps recordsBefore
        rw [List.filter_map, List.length_map]
        apply length_filter_le_of_imp
        intro i hi hcond
        have hci : w < p i ∧ p i ≤ w + 60 := by
          simpa [Bool.and_eq_true, decide_eq_true_eq] using hcond
        have hpri := hpr i
        simp only [Function.comp, decide_eq_true_eq]
        linarith [hw.2, hci.1]
      have hg := hgate n (Nat.lt_succ_self n)
      unfold gateOpen at hg
      simp only [List.filter_cons, List.filter_nil, hwin, if_true, List.length_cons,
        List.length_nil]
      omega
    · rw [Bool.not_eq_true] at hwin
      simp only [List.filter_cons, List.filter_nil, hwin, Bool.false_eq_true, if_false,
        List.length_nil]
      have := ihn w
      unfold windowCount at this
      omega

/-- Permit and record times of a concrete gated burst: sends at times 0, 1
and 2 fill the three-per-minute capacity, the fourth send is delayed to
time 61 when the first two records have aged out. -/
def pwitC2 : Nat → ℚ
  | 0 => 0
  | 1 => 1
  | 2 => 2
  | 3 => 61
  | _ => 200

/-- Witness for C2 at the configured capacity rpm_limit = 3. -/
theorem claim_C2_witness : windowCount pwitC2 4 (-1) ≤ API_rpm_limit :=
  claim_C2 API_rpm_limit 4 pwitC2 pwitC2
    (fun i => le_refl (pwitC2 i))
    (by
      intro i
      match i with
      | 0 => norm_num [pwitC2]
      | 1 => norm_num [pwitC2]
      | 2 => norm_num [pwitC2]
      | 3 => norm_num [pwitC2]
      | n + 4 => exact le_refl (200 : ℚ))
    (by
      intro k hk
      interval_cases k <;>
        norm_num [gateOpen, clean_old_timestamps, recordsBefore, pwitC2, List.range_succ,
          List.filter_cons, decide_eq_true_eq, API_rpm_limit])
    (-1)

theorem filterMap_norm_system (msgs : List Message) :
    (msgs.filterMap normalizeOne).filter (fun e => e.role == "system") = [] := by
  induction msgs with
  | nil => simp
  | cons m rest ih =>
    cases m with
    | system c => simpa [normalizeOne] using ih
    | user c => simpa [normalizeOne] using ih
    | assistant bs => simpa [normalizeOne] using ih

theorem filterMap_norm_user (msgs : List Message) :
    ((msgs.filterMap normalizeOne).filter (fun e => e.role == "user")).map
      (fun e => e.content) = userContents msgs := by
  induction msgs with
  | nil => simp [userContents]
  | cons m rest ih =>
    cases m with
    | system c => simpa [normalizeOne, userContents] using ih
    | user c => simpa [normalizeOne, userContents] using ih
    | assistant bs => simpa [normalizeOne, userContents] using ih

theorem filterMap_norm_assistant (msgs : List Message) :
    ((msgs.filterMap normalizeOne).filter (fun e => e.role == "assistant")).map
      (fun e => e.content) = assistantRenders msgs := by
  induction msgs with
  | nil => simp [assistantRenders]
  | cons m rest ih =>
    cases m with
    | system c => simpa [normalizeOne, assistantRenders] using ih
    | user c => simpa [normalizeOne, assistantRenders] using ih
    | assistant bs => simpa [normalizeOne, assistantRenders] using ih

/-- C7: normalization is a pure function of the transcript (it is a plain
function of the message list, with no other inputs, so equal transcripts
give equal output by construction); its output holds at most one system
entry, whose content is the first system message; the user entries pass
through in order; and each assistant message contributes exactly its
rendering, which joins text blocks with newlines and turns a call block
into one serialized call wrapped in the fixed delimiter tokens. -/
theorem claim_C7 (msgs : List Message) :
    ((normalize_messages msgs).filter (fun e => e.role == "system")).length ≤ 1 ∧
    ((normalize_messages msgs).filter (fun e => e.role == "system")).map
      (fun e => e.content) = (firstSystemContent msgs).toList ∧
    ((normalize_messages msgs).filter (fun e => e.role == "user")).map
      (fun e => e.content) = userContents msgs ∧
    ((normalize_messages msgs).filter (fun e => e.role == "assistant")).map
      (fun e => e.content) = assistantRenders msgs := by
  unfold normalize_messages
  cases hfs : firstSystemContent msgs <;>
    simp [List.filter_append, filterMap_norm_system, filterMap_norm_user,
      filterMap_norm_assistant]
